import Mathlib

/-!
The Ethereum JSON-RPC adapter of smartbch (`rpc/api/eth_api_utils.go`)

A shallow embedding of the transaction builder, the record translators and the
execution-error classifier, followed by the properties proved about them.

Conventions of the embedding
* a Go byte is a `Fin 256`; a slice `[]byte` is a `List Byte` (a nil slice and an
  empty slice are both `[]`: `len` and `bytes.Equal` do not tell them apart);
* a fixed array `[n]byte` is a list together with the proof that it has `n` entries;
* a pointer that may be nil is an `Option`;
* `uint64` values are natural numbers, `int64` values are integers in the signed
  64-bit range, `*big.Int` values are integers; the conversion of an `int64` to
  `uint64` is the reduction modulo `2^64`;
* a Go `error` is the string it carries, a `(result, error)` pair is an `Except`.
-/

namespace SmartBCH

/-! ## Basic values -/

abbrev Byte := Fin 256

abbrev Bytes := List Byte

/-- The Go array type `[n]byte`. -/
abbrev ByteArray (n : Nat) := { l : List Byte // l.length = n }

/-- The type `gethcmn.Address`, and `[20]byte`. -/
abbrev Address := ByteArray 20

/-- The type `gethcmn.Hash`, and `[32]byte`. -/
abbrev Hash := ByteArray 32

/-- The type `gethtypes.Bloom`, and `[256]byte`. -/
abbrev Bloom := ByteArray 256

/-- The zero value of `[n]byte`, as in `gethcmn.Hash{}`. -/
def ByteArray.zero (n : Nat) : ByteArray n := ⟨List.replicate n 0, List.length_replicate n 0⟩

/-- The Go type `int64`. -/
abbrev int64 := { i : Int // -(2 : Int) ^ 63 ≤ i ∧ i < (2 : Int) ^ 63 }

/-- The Go conversion `uint64(x)` of a signed 64-bit integer (two's complement). -/
def toUint64 (x : int64) : Nat := (x.1 % (2 : Int) ^ 64).toNat

deriving instance DecidableEq for Except

/-! ## Transaction builder -/

/-- The client-supplied arguments `rpctypes.SendTxArgs`: every field that
`createGethTxFromSendTxArgs` reads is a pointer. -/
structure SendTxArgs where
  To : Option Address
  Gas : Option Nat
  GasPrice : Option Int
  Value : Option Int
  Nonce : Option Nat
  Data : Option Bytes
  Input : Option Bytes
deriving DecidableEq

/-- Modelled from the spec: `ethutils.NewTx` and the `gethtypes.Transaction` it returns
are declared outside the translated file; the spec has the builder "construct and
return an unsigned transaction carrying exactly: nonce, recipient (nil for creation),
value, gas limit, gas price, payload", so the transaction is the record of the six
arguments of the call. -/
structure GethTx where
  nonce : Nat
  recipient : Option Address
  amount : Option Int
  gasLimit : Nat
  gasPrice : Int
  data : Bytes
deriving DecidableEq

/-- The call `ethutils.NewTx(nonce, to, amount, gasLimit, gasPrice, data)`; `recipient` is its `to`. -/
def NewTx (nonce : Nat) (recipient : Option Address) (amount : Option Int) (gasLimit : Nat)
    (gasPrice : Int) (data : Bytes) : GethTx :=
  { nonce := nonce, recipient := recipient, amount := amount, gasLimit := gasLimit,
    gasPrice := gasPrice, data := data }

/-- The error of line 42. -/
def errDataInput : String :=
  "both \"data\" and \"input\" are set and not equal. Please use \"input\" to pass transaction call data"

/-- The function `createGethTxFromSendTxArgs`. The package constants `DefaultGasPrice`
and `DefaultRPCGasLimit` are declared in another file and are parameters here. -/
def createGethTxFromSendTxArgs (DefaultGasPrice : Int) (DefaultRPCGasLimit : Nat)
    (args : SendTxArgs) : Except String GethTx :=
  let amount := args.Value
  let gasPrice : Int :=
    match args.GasPrice with
    | none => DefaultGasPrice
    | some p => p
  match args.Nonce with
  | none => .error "no nonce"
  | some nonce =>
    let conflict : Bool :=
      match args.Data, args.Input with
      | some d, some i => !(d == i)
      | _, _ => false
    if conflict then .error errDataInput
    else
      let input : Bytes :=
        match args.Input with
        | some i => i
        | none =>
          match args.Data with
          | some d => d
          | none => []
      if args.To.isNone && input.length == 0 then
        .error "contract creation without any data provided"
      else
        let gasLimit : Nat :=
          match args.Gas with
          | none => DefaultRPCGasLimit
          | some g => g
        match args.To with
        | some a => .ok (NewTx nonce (some a) amount gasLimit gasPrice input)
        | none => .ok (NewTx nonce none amount gasLimit gasPrice input)

/-! ## Records of the storage layer (`moeingevm/types`) -/

/-- The record `types.Log`, with the fields the spec's data model lists: emitting
address, topics, data and the number of the enclosing block. -/
structure types.Log where
  Address : ByteArray 20
  Topics : List (ByteArray 32)
  Data : Bytes
  BlockNumber : Nat
deriving DecidableEq

/-- The record `types.Block`, with the fields `blockToRpcResp` reads. `Number`, `Size`
and `Timestamp` are `int64` (the tests build blocks from a `height int64`), `GasUsed`
is `uint64`. -/
structure types.Block where
  Number : int64
  Hash : ByteArray 32
  ParentHash : ByteArray 32
  TransactionsRoot : ByteArray 32
  StateRoot : ByteArray 32
  Miner : ByteArray 20
  Size : int64
  GasUsed : Nat
  Timestamp : int64
  Transactions : List (ByteArray 32)
deriving DecidableEq

/-- The record `types.Transaction`, which holds a transaction together with its receipt.
`BlockNumber` is the argument of `big.NewInt`, an `int64`, and so is `TransactionIndex`;
the gas counters, the nonce and the status are `uint64`. -/
structure types.Transaction where
  Hash : ByteArray 32
  TransactionIndex : int64
  Nonce : Nat
  BlockHash : ByteArray 32
  BlockNumber : int64
  From : ByteArray 20
  To : ByteArray 20
  Value : ByteArray 32
  GasPrice : ByteArray 32
  Gas : Nat
  Input : Bytes
  CumulativeGasUsed : Nat
  GasUsed : Nat
  ContractAddress : ByteArray 20
  Logs : List types.Log
  LogsBloom : ByteArray 256
  Status : Nat
  StatusStr : String
  OutData : Bytes
deriving DecidableEq

/-! ## Wire objects -/

/-- The record `gethtypes.Log`, restricted to the fields of `types.Log`. -/
structure gethtypes.Log where
  Address : Address
  Topics : List Hash
  Data : Bytes
  BlockNumber : Nat
deriving DecidableEq

/-- The wire object `rpctypes.Transaction`; `V`, `R` and `S` are never assigned. -/
structure rpctypes.Transaction where
  BlockHash : Option (ByteArray 32)
  BlockNumber : Option Int
  From : ByteArray 20
  Gas : Nat
  GasPrice : Option Int
  Hash : ByteArray 32
  Input : Bytes
  Nonce : Nat
  To : Option (ByteArray 20)
  TransactionIndex : Option Nat
  Value : Option Int
  V : Option Int
  R : Option Int
  S : Option Int
deriving DecidableEq

/-- The dynamic values stored in a response `map[string]interface{}`, one constructor
for each Go type that the translators store. -/
inductive Value where
  | uint64 (n : Nat)
  | uint (n : Nat)
  | bytes (b : Bytes)
  | hash (h : Hash)
  | address (a : Address)
  | bloom (b : Bloom)
  | null
  | string (s : String)
  | strings (l : List String)
  | hashes (l : List Hash)
  | txs (l : List (Option rpctypes.Transaction))
  | logs (l : List (Option gethtypes.Log))
deriving DecidableEq

/-- A response object `map[string]interface{}`: the bindings, at most one for each key. -/
structure Map where
  entries : List (String × Value)
deriving DecidableEq

/-- The lookup `m[k]`, `none` when the key is not in the map. -/
def Map.get (m : Map) (k : String) : Option Value := m.entries.lookup k

/-- The assignment `m[k] = v`: it replaces the binding of `k`, or adds one. -/
def Map.set (m : Map) (k : String) (v : Value) : Map :=
  if m.entries.any (fun p => p.1 == k) then
    ⟨m.entries.map (fun p => if p.1 == k then (k, v) else p)⟩
  else
    ⟨m.entries ++ [(k, v)]⟩

/-- The number of bindings, `len(m)`. -/
def Map.len (m : Map) : Nat := m.entries.length

/-! ## Helpers from the Go library and from neighbouring packages -/

/-- The Go builtin `copy(dst, src)` on byte slices: the first `min (len dst) (len src)`
entries of `dst` are overwritten with those of `src`. -/
def copy (dst src : Bytes) : Bytes := src.take dst.length ++ dst.drop src.length

/-- The statement `copy(dst[:], src)` for an array `dst`. -/
def ByteArray.copy {n : Nat} (dst : ByteArray n) (src : Bytes) : ByteArray n :=
  ⟨SmartBCH.copy dst.1 src, by
    have h := dst.2
    simp only [SmartBCH.copy, List.length_append, List.length_take, List.length_drop]
    omega⟩

/-- The Go idiom `out := make([]*T, len(xs)); for i, x := range xs { out[i] = f(x) }`,
from index `i` on: the loop body assigns entry `i` and goes on with the rest. -/
def fillFrom {α β : Type} (f : α → β) : Nat → List α → List (Option β) → List (Option β)
  | _, [], out => out
  | i, x :: xs, out => fillFrom f (i + 1) xs (out.set i (some (f x)))

/-- The whole idiom: a slice of `len(xs)` nil pointers, filled by the loop. -/
def fillLoop {α β : Type} (f : α → β) (xs : List α) : List (Option β) :=
  fillFrom f 0 xs (List.replicate xs.length none)

/-- The digit table of `encoding/hex`. -/
def hextable : List Char := "0123456789abcdef".toList

/-- The function `hex.EncodeToString` of the Go library: two digits of `hextable` for
each byte, the high nibble first. -/
def hex.EncodeToString (src : Bytes) : String :=
  String.mk (src.flatMap fun v => [hextable.getD (v.val / 16) '0', hextable.getD (v.val % 16) '0'])

/-- The table `reverseHexTable` of `encoding/hex`: the value of a hexadecimal digit, of
either case, and nothing for any other character. -/
def fromHexChar (c : Char) : Option Nat :=
  let n := c.toNat
  if 48 ≤ n ∧ n ≤ 57 then some (n - 48)
  else if 97 ≤ n ∧ n ≤ 102 then some (n - 97 + 10)
  else if 65 ≤ n ∧ n ≤ 70 then some (n - 65 + 10)
  else none

/-- The loop of `hex.Decode`: two digits give one byte; an invalid digit or a digit left
over is an error. -/
def hex.decodeChars : List Char → Option Bytes
  | [] => some []
  | [_] => none
  | p :: q :: rest =>
    match fromHexChar p, fromHexChar q with
    | some a, some b =>
      match hex.decodeChars rest with
      | some out => some (⟨(a * 16 + b) % 256, Nat.mod_lt _ (by decide)⟩ :: out)
      | none => none
    | _, _ => none

/-- The function `hex.DecodeString` of the Go library, the inverse of
`hex.EncodeToString`; `none` is its error. -/
def hex.DecodeString (s : String) : Option Bytes := hex.decodeChars s.data

/-- Modelled from the spec: `bigutils.U256FromSlice32(b).ToBig()` is declared outside the
translated file; the spec's value codec reads the 32 bytes as a 256-bit integer, big-endian. -/
def U256FromSlice32 (b : Bytes) : Int :=
  ((b.foldl (fun acc v => acc * 256 + v.val) 0 : Nat) : Int)

/-- Modelled from the spec: `types.ToGethHashes` belongs to the storage package; the
`transactions` field "defaults to the block's hash sequence (as emitted by the storage
layer)", so the conversion is element by element. -/
def ToGethHashes (hs : List (ByteArray 32)) : List Hash := hs.map fun h => h

/-- Modelled from the spec: the log translator is a "trivial field copy". -/
def ToGethLog (l : types.Log) : gethtypes.Log :=
  { Address := l.Address, Topics := l.Topics, Data := l.Data, BlockNumber := l.BlockNumber }

/-- Modelled from the spec: `types.ToGethLogs` belongs to the storage package; "logs is
the full ordered Log sequence reshaped via the log translator". -/
def ToGethLogs (logs : List types.Log) : List (Option gethtypes.Log) :=
  logs.map fun l => some (ToGethLog l)

/-- The constant `gethtypes.ReceiptStatusFailed` of go-ethereum. -/
def ReceiptStatusFailed : Nat := 0

/-! ## Record translators -/

/-- The function `txToRpcResp`. The pointers `BlockHash` and `To` are set to fresh zero
arrays, which the two `copy` statements then fill. -/
def txToRpcResp (tx : types.Transaction) : rpctypes.Transaction :=
  let idx : Nat := toUint64 tx.TransactionIndex
  let blockHash : ByteArray 32 := ByteArray.zero 32
  let to_ : ByteArray 20 := ByteArray.zero 20
  let resp : rpctypes.Transaction :=
    { BlockHash := some blockHash
      BlockNumber := some tx.BlockNumber.1
      From := tx.From
      Gas := tx.Gas
      GasPrice := some (U256FromSlice32 tx.GasPrice.1)
      Hash := tx.Hash
      Input := tx.Input
      Nonce := tx.Nonce
      To := some to_
      TransactionIndex := some idx
      Value := some (U256FromSlice32 tx.Value.1)
      V := none
      R := none
      S := none }
  let resp := { resp with BlockHash := some (blockHash.copy tx.BlockHash.1) }
  let resp := { resp with To := some (to_.copy tx.To.1) }
  resp

/-- The function `txsToRpcResp`. -/
def txsToRpcResp (txs : List types.Transaction) : List (Option rpctypes.Transaction) :=
  fillLoop txToRpcResp txs

/-- The function `blockToRpcResp`; the constant `param.BlockMaxGas` is a parameter. -/
def blockToRpcResp (BlockMaxGas : Nat) (block : types.Block) (txs : List types.Transaction) :
    Map :=
  let result : Map := ⟨[
    ("number", .uint64 (toUint64 block.Number)),
    ("hash", .bytes block.Hash.1),
    ("parentHash", .bytes block.ParentHash.1),
    ("nonce", .bytes (List.replicate 8 0)),
    ("sha3Uncles", .hash (ByteArray.zero 32)),
    ("logsBloom", .bloom (ByteArray.zero 256)),
    ("transactionsRoot", .bytes block.TransactionsRoot.1),
    ("stateRoot", .bytes block.StateRoot.1),
    ("miner", .bytes block.Miner.1),
    ("mixHash", .hash (ByteArray.zero 32)),
    ("difficulty", .uint64 0),
    ("totalDifficulty", .uint64 0),
    ("extraData", .bytes []),
    ("size", .uint64 (toUint64 block.Size)),
    ("gasLimit", .uint64 BlockMaxGas),
    ("gasUsed", .uint64 block.GasUsed),
    ("timestamp", .uint64 (toUint64 block.Timestamp)),
    ("transactions", .hashes (ToGethHashes block.Transactions)),
    ("uncles", .strings []),
    ("receiptsRoot", .hash (ByteArray.zero 32))]⟩
  if txs.length > 0 then
    let rpcTxs := fillLoop txToRpcResp txs
    result.set "transactions" (.txs rpcTxs)
  else
    result

/-- The loop of `isZeroAddress` over the bytes of the array. -/
def isZeroAddress.loop : List Byte → Bool
  | [] => true
  | b :: rest => if b != 0 then false else isZeroAddress.loop rest

/-- The function `isZeroAddress`. -/
def isZeroAddress (addr : ByteArray 20) : Bool := isZeroAddress.loop addr.1

/-- The function `txToReceiptRpcResp`. -/
def txToReceiptRpcResp (tx : types.Transaction) : Map :=
  let resp : Map := ⟨[
    ("transactionHash", .hash tx.Hash),
    ("transactionIndex", .uint64 (toUint64 tx.TransactionIndex)),
    ("blockHash", .hash tx.BlockHash),
    ("blockNumber", .uint64 (toUint64 tx.BlockNumber)),
    ("from", .address tx.From),
    ("to", .address tx.To),
    ("cumulativeGasUsed", .uint64 tx.CumulativeGasUsed),
    ("contractAddress", .null),
    ("gasUsed", .uint64 tx.GasUsed),
    ("logs", .logs (ToGethLogs tx.Logs)),
    ("logsBloom", .bytes tx.LogsBloom.1),
    ("status", .uint tx.Status)]⟩
  let resp :=
    if !isZeroAddress tx.ContractAddress then
      resp.set "contractAddress" (.address tx.ContractAddress)
    else resp
  let resp :=
    if tx.Status == ReceiptStatusFailed then
      (resp.set "statusStr" (.string tx.StatusStr)).set "outData"
        (.string (hex.EncodeToString tx.OutData))
    else resp
  resp

/-- The function `txsToReceiptRpcResp`. -/
def txsToReceiptRpcResp (txs : List types.Transaction) : List (Option Map) :=
  fillLoop txToReceiptRpcResp txs

/-! ## Execution-error classifier -/

/-- The error type `callError`. -/
structure callError where
  code : Int
  msg : String
deriving DecidableEq

/-- The non-nil values of the Go interface `error` that `toCallErr` returns: a
`*revertError`, of type `R` here, or a `callError`. -/
inductive CallErr (R : Type) where
  | revert (e : R)
  | call (e : callError)
deriving DecidableEq

/-- The function `toCallErr`; the result `none` would be the nil error. The functions
`ebp.StatusToStr` and `newRevertError` and the constant `defaultErrorCode` are declared
elsewhere and are parameters. -/
def toCallErr {R : Type} (StatusToStr : Int → String) (newRevertError : Bytes → R)
    (defaultErrorCode : Int) (statusCode : Int) (retData : Bytes) : Option (CallErr R) :=
  let statusStr := StatusToStr statusCode
  if statusStr = "revert" then
    some (.revert (newRevertError retData))
  else if statusStr = "invalid-instruction" then
    some (.call { code := defaultErrorCode, msg := "invalid opcode" })
  else
    some (.call { code := defaultErrorCode, msg := statusStr })

/-! ## The spec's vocabulary -/

/-- The effective payload of the arguments in the spec's words: "payload = `input` if
present else `data` else empty". -/
def SendTxArgs.payload (args : SendTxArgs) : Bytes :=
  match args.Input, args.Data with
  | some i, _ => i
  | none, some d => d
  | none, none => []

/-- The spec's `AmbiguousPayload` condition: "both `data` and `input` are present and
differ byte-for-byte". -/
def SendTxArgs.ambiguous (args : SendTxArgs) : Prop :=
  ∃ d i, args.Data = some d ∧ args.Input = some i ∧ d ≠ i

/-- The call returned a transaction and no error. -/
def succeeds (r : Except String GethTx) : Prop := ∃ tx, r = .ok tx

/-- The Go `len` of a list-valued entry of a response (what `require.Len` measures). -/
def Value.len : Value → Nat
  | .strings l => l.length
  | .hashes l => l.length
  | .txs l => l.length
  | .logs l => l.length
  | .bytes b => b.length
  | _ => 0

/-- The transaction hash that the `i`-th entry of a `transactions` field stands for: the
entry itself in a hash list, the `Hash` of the entry in a list of transaction objects. -/
def Value.hashAt : Value → Nat → Option Hash
  | .hashes l, i => l[i]?
  | .txs l, i => (l[i]?).bind fun t => t.map fun r => r.Hash
  | _, _ => none

/-- All bytes of the array are zero. -/
def ByteArray.allZero {n : Nat} (a : ByteArray n) : Prop := ∀ b ∈ a.1, b = 0

/-- The map literal of `txToReceiptRpcResp` (lines 147 to 160), before the two conditional
assignments; the lemmas on the receipt are stated with it. -/
def receiptBase (tx : types.Transaction) : Map :=
  ⟨[("transactionHash", .hash tx.Hash),
    ("transactionIndex", .uint64 (toUint64 tx.TransactionIndex)),
    ("blockHash", .hash tx.BlockHash),
    ("blockNumber", .uint64 (toUint64 tx.BlockNumber)),
    ("from", .address tx.From),
    ("to", .address tx.To),
    ("cumulativeGasUsed", .uint64 tx.CumulativeGasUsed),
    ("contractAddress", .null),
    ("gasUsed", .uint64 tx.GasUsed),
    ("logs", .logs (ToGethLogs tx.Logs)),
    ("logsBloom", .bytes tx.LogsBloom.1),
    ("status", .uint tx.Status)]⟩

/-- The value codec's encoding of a byte string in the spec's words: the prefix "0x"
followed by two lowercase hexadecimal digits for each byte. -/
def codecHexEncode (b : Bytes) : String :=
  "0x" ++ String.mk (b.flatMap fun v =>
    ["0123456789abcdef".toList.getD (v.val / 16) '0',
     "0123456789abcdef".toList.getD (v.val % 16) '0'])

/-- A lowercase hexadecimal digit. -/
def isLowerHexDigit (c : Char) : Bool := "0123456789abcdef".toList.contains c

/-! ## Sample values -/

/-- The address `gethcmn.Address{0xA2}` of the receipt test. -/
def sampleAddress : Address := ⟨0xA2 :: List.replicate 19 0, by decide⟩

/-- The hash `gethcmn.Hash{0x12, 0x34}` of the block tests. -/
def sampleHash : Hash := ⟨0x12 :: 0x34 :: List.replicate 30 0, by decide⟩

/-- A creation request whose `data` and `input` agree. -/
def sampleCreateArgs : SendTxArgs :=
  { To := none, Gas := none, GasPrice := none, Value := none, Nonce := some 3,
    Data := some [0x60, 0x80], Input := some [0x60, 0x80] }

/-- A request without `to` and without payload, all other fields set. -/
def sampleEmptyArgs : SendTxArgs :=
  { To := none, Gas := some 21000, GasPrice := some 1, Value := some 10, Nonce := some 0,
    Data := none, Input := some [] }

/-- A request without nonce, otherwise well formed. -/
def sampleNoNonceArgs : SendTxArgs :=
  { To := some sampleAddress, Gas := some 21000, GasPrice := some 1, Value := some 10,
    Nonce := none, Data := none, Input := none }

/-- A plain transfer that leaves `gas` and `gasPrice` to the defaults. -/
def sampleTransferArgs : SendTxArgs :=
  { To := some sampleAddress, Gas := none, GasPrice := none, Value := some 10,
    Nonce := some 7, Data := some [0x01], Input := none }

/-- The hash `gethcmn.Hash{b}` of the tests: first byte `b`, then zeros. -/
def hashOf (b : Byte) : Hash := ⟨b :: List.replicate 31 0, by simp⟩

/-- The block of `TestGetBlockByNum`: height 123 and three transaction hashes. -/
def sampleBlock : types.Block :=
  { Number := ⟨123, by decide⟩
    Hash := sampleHash
    ParentHash := ByteArray.zero 32
    TransactionsRoot := ByteArray.zero 32
    StateRoot := ByteArray.zero 32
    Miner := ByteArray.zero 20
    Size := ⟨0, by decide⟩
    GasUsed := 0
    Timestamp := ⟨0, by decide⟩
    Transactions := [hashOf 0x56, hashOf 0x78, hashOf 0x90] }

/-- The same block with the height `-1`. -/
def sampleNegBlock : types.Block := { sampleBlock with Number := ⟨-1, by decide⟩ }

/-- The transaction `0x78` of `TestGetTxReceipt`: successful, no contract created, two
logs. -/
def sampleTx : types.Transaction :=
  { Hash := hashOf 0x78
    TransactionIndex := ⟨1, by decide⟩
    Nonce := 0
    BlockHash := sampleHash
    BlockNumber := ⟨123, by decide⟩
    From := ByteArray.zero 20
    To := ByteArray.zero 20
    Value := ByteArray.zero 32
    GasPrice := ByteArray.zero 32
    Gas := 0
    Input := []
    CumulativeGasUsed := 0
    GasUsed := 0
    ContractAddress := ByteArray.zero 20
    Logs := [
      { Address := ⟨0xA1 :: List.replicate 19 0, by decide⟩
        Topics := [hashOf 0xF1, hashOf 0xF2], Data := [], BlockNumber := 123 },
      { Address := sampleAddress
        Topics := [hashOf 0xF3, hashOf 0xF4], Data := [0xD1], BlockNumber := 123 }]
    LogsBloom := ByteArray.zero 256
    Status := 1
    StatusStr := ""
    OutData := [] }

/-- A failed contract creation: status 0 with a status string and output data. -/
def sampleFailedTx : types.Transaction :=
  { sampleTx with
    ContractAddress := sampleAddress, Status := 0, StatusStr := "revert",
    OutData := [0x08, 0xc3, 0x79, 0xa0] }

/-- A status table that spells the revert status with a capital letter. -/
def sampleStatusToStr (code : Int) : String := if code = 2 then "Revert" else "success"

/-- A block that stores the hash `0x78` alone, the hash of `sampleTx`. -/
def sampleOwnBlock : types.Block := { sampleBlock with Transactions := [hashOf 0x78] }

/-- The transaction of the tests with the block number `-1`. -/
def sampleNegHeightTx : types.Transaction :=
  { sampleTx with BlockNumber := ⟨-1, by decide⟩ }

/-- A creation request without nonce whose `data` and `input` differ. -/
def sampleConflictArgs : SendTxArgs :=
  { To := none, Gas := none, GasPrice := none, Value := none, Nonce := none,
    Data := some [0x01], Input := some [0x02] }

/-! ## Properties of the transaction builder -/

/-- What the builder returns once the nonce is known, with the payload of the spec. -/
theorem createGethTx_of_nonce (gp : Int) (gl : Nat) (args : SendTxArgs) (n : Nat)
    (hn : args.Nonce = some n) :
    (args.ambiguous → createGethTxFromSendTxArgs gp gl args = .error errDataInput) ∧
    (¬ args.ambiguous → args.To = none → args.payload = [] →
      createGethTxFromSendTxArgs gp gl args =
        .error "contract creation without any data provided") ∧
    (¬ args.ambiguous → (args.To ≠ none ∨ args.payload ≠ []) →
      createGethTxFromSendTxArgs gp gl args =
        .ok (NewTx n args.To args.Value (args.Gas.getD gl) (args.GasPrice.getD gp)
          args.payload)) := by
  rcases args with ⟨to_, gas, gprice, v, nonce, data, input⟩
  simp only at hn
  subst hn
  rcases data with _ | d <;> rcases input with _ | i <;> rcases to_ with _ | a <;>
    rcases gas with _ | g <;> rcases gprice with _ | q <;>
    simp [createGethTxFromSendTxArgs, SendTxArgs.payload, SendTxArgs.ambiguous, NewTx] <;>
    (try split_ifs) <;> simp_all

/-- What the builder returns when the nonce pointer is nil. -/
theorem createGethTx_nil_nonce (gp : Int) (gl : Nat) (args : SendTxArgs)
    (hn : args.Nonce = none) :
    createGethTxFromSendTxArgs gp gl args = .error "no nonce" := by
  simp only [createGethTxFromSendTxArgs, hn]

/-- The builder either returns a transaction or an error, never both. -/
theorem not_succeeds_error (e : String) : ¬ succeeds (.error e) := by
  rintro ⟨tx, h⟩
  cases h

/-- C1: when `data` and `input` are both set, the builder returns an error (and no
transaction) if they differ; if they are equal, the nonce is present and either `to` is
present or the payload is non-empty, it returns a transaction whose payload is `input`. -/
theorem createGethTx_data_and_input (gp : Int) (gl : Nat) (args : SendTxArgs) (d i : Bytes)
    (hd : args.Data = some d) (hi : args.Input = some i) :
    (d ≠ i → ∃ e, createGethTxFromSendTxArgs gp gl args = .error e) ∧
    (d = i → ∀ n, args.Nonce = some n → (args.To ≠ none ∨ i ≠ []) →
      ∃ tx, createGethTxFromSendTxArgs gp gl args = .ok tx ∧ tx.data = i) := by
  have hp : args.payload = i := by simp [SendTxArgs.payload, hi]
  constructor
  · intro hne
    cases hn : args.Nonce with
    | none => exact ⟨_, createGethTx_nil_nonce gp gl args hn⟩
    | some n => exact ⟨_, (createGethTx_of_nonce gp gl args n hn).1 ⟨d, i, hd, hi, hne⟩⟩
  · intro heq n hn hto
    have hna : ¬ args.ambiguous := by
      rintro ⟨d2, i2, hd2, hi2, hne⟩
      rw [hd] at hd2
      rw [hi] at hi2
      cases hd2
      cases hi2
      exact hne heq
    refine ⟨_, (createGethTx_of_nonce gp gl args n hn).2.2 hna (hp ▸ hto), ?_⟩
    simp [NewTx, hp]

/-- C1, at a creation request with `data = input = 0x6080`. -/
theorem createGethTx_data_and_input_witness :
    sampleCreateArgs.Data = some [0x60, 0x80] ∧ sampleCreateArgs.Input = some [0x60, 0x80] ∧
    ∃ tx, createGethTxFromSendTxArgs 1 21000 sampleCreateArgs = .ok tx ∧
      tx.data = [0x60, 0x80] :=
  ⟨rfl, rfl,
    (createGethTx_data_and_input 1 21000 sampleCreateArgs [0x60, 0x80] [0x60, 0x80] rfl rfl).2
      rfl 3 rfl (Or.inr (by decide))⟩

/-- C2: without `to` and with an empty effective payload the builder returns an error
and no transaction, whatever nonce, gas, gasPrice and value are. -/
theorem createGethTx_empty_creation (gp : Int) (gl : Nat) (args : SendTxArgs)
    (hto : args.To = none) (hp : args.payload.length = 0) :
    ∃ e, createGethTxFromSendTxArgs gp gl args = .error e := by
  have hp2 : args.payload = [] := List.length_eq_zero.mp hp
  cases hn : args.Nonce with
  | none => exact ⟨_, createGethTx_nil_nonce gp gl args hn⟩
  | some n =>
    by_cases ha : args.ambiguous
    · exact ⟨_, (createGethTx_of_nonce gp gl args n hn).1 ha⟩
    · exact ⟨_, (createGethTx_of_nonce gp gl args n hn).2.1 ha hto hp2⟩

/-- C2, at a request with nonce, gas, gasPrice and value set. -/
theorem createGethTx_empty_creation_witness :
    sampleEmptyArgs.To = none ∧ sampleEmptyArgs.payload.length = 0 ∧
    ∃ e, createGethTxFromSendTxArgs 1 21000 sampleEmptyArgs = .error e :=
  ⟨rfl, rfl, createGethTx_empty_creation 1 21000 sampleEmptyArgs rfl rfl⟩

/-- C3: when the nonce is absent the builder returns the "no nonce" error and no
transaction. -/
theorem createGethTx_no_nonce (gp : Int) (gl : Nat) (args : SendTxArgs)
    (hn : args.Nonce = none) :
    createGethTxFromSendTxArgs gp gl args = .error "no nonce" ∧
    ¬ succeeds (createGethTxFromSendTxArgs gp gl args) := by
  have h : createGethTxFromSendTxArgs gp gl args = .error "no nonce" := by
    simp only [createGethTxFromSendTxArgs, hn]
  exact ⟨h, h ▸ not_succeeds_error _⟩

/-- C3, at a request that is well formed but for the nonce. -/
theorem createGethTx_no_nonce_witness :
    sampleNoNonceArgs.Nonce = none ∧
    createGethTxFromSendTxArgs 1 21000 sampleNoNonceArgs = .error "no nonce" :=
  ⟨rfl, (createGethTx_no_nonce 1 21000 sampleNoNonceArgs rfl).1⟩

/-- The success condition of the builder. -/
theorem succeeds_iff (gp : Int) (gl : Nat) (args : SendTxArgs) :
    succeeds (createGethTxFromSendTxArgs gp gl args) ↔
      args.Nonce ≠ none ∧ ¬ args.ambiguous ∧ (args.To ≠ none ∨ args.payload ≠ []) := by
  cases hn : args.Nonce with
  | none =>
    rw [createGethTx_nil_nonce gp gl args hn]
    simp [not_succeeds_error]
  | some n =>
    obtain ⟨h1, h2, h3⟩ := createGethTx_of_nonce gp gl args n hn
    by_cases ha : args.ambiguous
    · rw [h1 ha]
      simp [not_succeeds_error, ha]
    · by_cases hc : args.To ≠ none ∨ args.payload ≠ []
      · rw [h3 ha hc]
        exact ⟨fun _ => ⟨by simp, ha, hc⟩, fun _ => ⟨_, rfl⟩⟩
      · have hto : args.To = none := by
          by_contra h
          exact hc (Or.inl h)
        have hp : args.payload = [] := by
          by_contra h
          exact hc (Or.inr h)
        rw [h2 ha hto hp]
        simp [not_succeeds_error, hto, hp]

/-- C4: the builder succeeds if and only if the nonce is present, `data` and `input` are
not both set to different byte strings, and `to` is present or the effective payload is
non-empty; replacing `gas` and `gasPrice` by any other values, present or absent, does
not change whether the call succeeds. -/
theorem createGethTx_succeeds_iff (gp : Int) (gl : Nat) (args : SendTxArgs) :
    (succeeds (createGethTxFromSendTxArgs gp gl args) ↔
      args.Nonce ≠ none ∧ ¬ args.ambiguous ∧ (args.To ≠ none ∨ args.payload ≠ [])) ∧
    ∀ (gas : Option Nat) (gasPrice : Option Int),
      (succeeds (createGethTxFromSendTxArgs gp gl
          { args with Gas := gas, GasPrice := gasPrice }) ↔
        succeeds (createGethTxFromSendTxArgs gp gl args)) := by
  refine ⟨succeeds_iff gp gl args, fun gas gasPrice => ?_⟩
  rw [succeeds_iff, succeeds_iff]
  simp [SendTxArgs.ambiguous, SendTxArgs.payload]

/-- C5: a transaction that the builder returns is `NewTx` of the supplied nonce, the
supplied `to` (nil when absent), the supplied value, the supplied gas or
`DefaultRPCGasLimit`, the supplied gasPrice or `DefaultGasPrice`, and the payload
(`input` if present, else `data`, else empty). -/
theorem createGethTx_fields (DefaultGasPrice : Int) (DefaultRPCGasLimit : Nat)
    (args : SendTxArgs) (tx : GethTx)
    (h : createGethTxFromSendTxArgs DefaultGasPrice DefaultRPCGasLimit args = .ok tx) :
    args.Nonce = some tx.nonce ∧
    tx.recipient = args.To ∧
    tx.amount = args.Value ∧
    tx.gasLimit = (match args.Gas with | some g => g | none => DefaultRPCGasLimit) ∧
    tx.gasPrice = (match args.GasPrice with | some p => p | none => DefaultGasPrice) ∧
    tx.data = (match args.Input, args.Data with
      | some i, _ => i
      | none, some d => d
      | none, none => []) := by
  have hs : succeeds (createGethTxFromSendTxArgs DefaultGasPrice DefaultRPCGasLimit args) :=
    ⟨tx, h⟩
  obtain ⟨hn, ha, hc⟩ := (succeeds_iff _ _ args).mp hs
  obtain ⟨n, hn2⟩ := Option.ne_none_iff_exists'.mp hn
  rw [(createGethTx_of_nonce _ _ args n hn2).2.2 ha hc] at h
  cases h
  refine ⟨hn2, rfl, rfl, ?_, ?_, ?_⟩
  · cases args.Gas <;> rfl
  · cases args.GasPrice <;> rfl
  · rfl

/-- C5, at a transfer that leaves `gas` and `gasPrice` to the defaults. -/
theorem createGethTx_fields_witness :
    createGethTxFromSendTxArgs 20000000000 10000000 sampleTransferArgs =
      .ok (NewTx 7 (some sampleAddress) (some 10) 10000000 20000000000 [0x01]) ∧
    (NewTx 7 (some sampleAddress) (some 10) 10000000 20000000000 [0x01]).gasLimit = 10000000 ∧
    (NewTx 7 (some sampleAddress) (some 10) 10000000 20000000000 [0x01]).gasPrice
      = 20000000000 :=
  have h := createGethTx_fields 20000000000 10000000 sampleTransferArgs
    (NewTx 7 (some sampleAddress) (some 10) 10000000 20000000000 [0x01]) rfl
  ⟨rfl, h.2.2.2.1, h.2.2.2.2.1⟩

/-! ## The fill loop and the response maps -/

/-- The loop invariant: the entries before the index are done, as many remain as inputs. -/
theorem fillFrom_append {α β : Type} (f : α → β) (xs : List α) :
    ∀ (done rest : List (Option β)), rest.length = xs.length →
      fillFrom f done.length xs (done ++ rest) = done ++ xs.map (fun x => some (f x)) := by
  induction xs with
  | nil =>
    intro done rest h
    have hr : rest = [] := List.length_eq_zero.mp h
    simp [fillFrom, hr]
  | cons x xs ih =>
    intro done rest h
    cases rest with
    | nil => simp at h
    | cons r rest =>
      have hl : rest.length = xs.length := by simpa using h
      have hs : (done ++ r :: rest).set done.length (some (f x)) = (done ++ [some (f x)]) ++ rest := by
        rw [List.set_append_right _ _ (le_refl _)]
        simp
      have := ih (done ++ [some (f x)]) rest hl
      simp only [List.length_append, List.length_singleton] at this
      simp only [fillFrom, hs, this]
      simp

/-- The fill idiom is the element-wise map, in the same order. -/
theorem fillLoop_eq_map {α β : Type} (f : α → β) (xs : List α) :
    fillLoop f xs = xs.map (fun x => some (f x)) := by
  have h := fillFrom_append f xs [] (List.replicate xs.length none) (by simp)
  simpa [fillLoop] using h

/-- Lookup after the replacement of the bindings of a key. -/
theorem lookup_map_set (l : List (String × Value)) (k k2 : String) (v : Value) :
    (l.map (fun p => if p.1 == k then (k, v) else p)).lookup k2 =
      if k2 = k then (if l.any (fun p => p.1 == k) then some v else none) else l.lookup k2 := by
  induction l with
  | nil => simp
  | cons p l ih =>
    obtain ⟨a, b⟩ := p
    rw [List.map_cons, List.any_cons]
    by_cases hak : a = k
    · have h1 : (a == k) = true := by simpa using hak
      rw [if_pos h1, List.lookup_cons, List.lookup_cons, ih, h1]
      by_cases h2 : k2 = k
      · have h3 : (k2 == k) = true := by simpa using h2
        simp [h2]
      · have h3 : (k2 == k) = false := by simpa using h2
        have h4 : (k2 == a) = false := by simpa [hak] using h2
        simp [h2, h3, h4]
    · have h1 : (a == k) = false := by simpa using hak
      rw [if_neg (by simp [h1]), List.lookup_cons, List.lookup_cons, ih, h1]
      by_cases h2 : k2 = k
      · subst h2
        have h4 : (k2 == a) = false := by
          simpa using (fun h : k2 = a => hak h.symm)
        simp only [h4, if_true]
        rfl
      · simp [h2]

/-- Lookup after a new binding is appended. -/
theorem lookup_append_single (l : List (String × Value)) (k k2 : String) (v : Value)
    (h : l.any (fun p => p.1 == k) = false) :
    (l ++ [(k, v)]).lookup k2 = if k2 = k then some v else l.lookup k2 := by
  induction l with
  | nil =>
    by_cases h2 : k2 = k
    · simp [List.lookup, h2]
    · have : (k2 == k) = false := by simpa using h2
      simp [List.lookup, h2, this]
  | cons p l ih =>
    obtain ⟨a, b⟩ := p
    simp only [List.any_cons, Bool.or_eq_false_iff] at h
    have hak : a ≠ k := by simpa using h.1
    by_cases h2 : k2 = k
    · subst h2
      have : (k2 == a) = false := by simpa using (fun h => hak (h.symm))
      simp [List.lookup, this, ih h.2]
    · rw [List.cons_append, List.lookup_cons, List.lookup_cons, ih h.2]
      simp only [if_neg h2]

/-- Reading a map after an assignment. -/
theorem Map.get_set (m : Map) (k k2 : String) (v : Value) :
    (m.set k v).get k2 = if k2 = k then some v else m.get k2 := by
  unfold Map.set Map.get
  by_cases h : m.entries.any (fun p => p.1 == k) = true
  · simp only [h, if_true, lookup_map_set]
  · have h2 : m.entries.any (fun p => p.1 == k) = false := Bool.eq_false_iff.mpr h
    simp only [h2, Bool.false_eq_true, if_false, lookup_append_single _ _ _ _ h2]
/-! ## Properties of the block translator -/

/-- A non-negative `int64` keeps its value under the conversion to `uint64`. -/
theorem toUint64_of_nonneg (x : int64) (h : 0 ≤ x.1) : (toUint64 x : Int) = x.1 := by
  have h2 : x.1 < (2 : Int) ^ 64 := lt_trans x.2.2 (by norm_num)
  unfold toUint64
  rw [Int.emod_eq_of_lt h h2, Int.toNat_of_nonneg h]

/-- A negative `int64` is changed by the conversion to `uint64`. -/
theorem toUint64_of_neg (x : int64) (h : x.1 < 0) : (toUint64 x : Int) ≠ x.1 := by
  intro heq
  have : (0 : Int) ≤ (toUint64 x : Int) := Int.ofNat_nonneg _
  omega

/-- Only the `transactions` field of a block response depends on `txs`. -/
theorem blockToRpcResp_get_of_ne (G : Nat) (block : types.Block)
    (txs : List types.Transaction) (k : String) (hk : k ≠ "transactions") :
    (blockToRpcResp G block txs).get k = (blockToRpcResp G block []).get k := by
  cases txs with
  | nil => rfl
  | cons t ts =>
    simp only [blockToRpcResp, List.length_cons, gt_iff_lt, Nat.zero_lt_succ, if_true,
      Map.get_set, if_neg hk, List.length_nil, lt_self_iff_false, if_false]

/-- The `transactions` field of a block response. -/
theorem blockToRpcResp_transactions (G : Nat) (block : types.Block)
    (txs : List types.Transaction) :
    (blockToRpcResp G block txs).get "transactions" =
      if txs = [] then some (.hashes block.Transactions)
      else some (.txs (txs.map fun t => some (txToRpcResp t))) := by
  cases txs with
  | nil => simp [blockToRpcResp, ToGethHashes, Map.get, List.lookup]
  | cons t ts =>
    simp only [blockToRpcResp, List.length_cons, gt_iff_lt, Nat.zero_lt_succ, if_true,
      Map.get_set, fillLoop_eq_map]
    simp

/-- C6: for every block and every `txs`, the response has `number` = `block.Number` (the
field holds the height converted to `uint64`, which is the height itself for every
height that is not negative, as the height of a block is), `hash` = the 32 bytes of
`block.Hash`, `gasUsed` = `block.GasUsed`, and `gasLimit` = `param.BlockMaxGas` for
every block and every `txs`, the same for any two blocks. -/
theorem blockToRpcResp_header (BlockMaxGas : Nat) (block : types.Block)
    (txs : List types.Transaction) :
    (blockToRpcResp BlockMaxGas block txs).get "number"
      = some (.uint64 (toUint64 block.Number)) ∧
    (0 ≤ block.Number.1 → (toUint64 block.Number : Int) = block.Number.1) ∧
    (blockToRpcResp BlockMaxGas block txs).get "hash" = some (.bytes block.Hash.1) ∧
    block.Hash.1.length = 32 ∧
    (blockToRpcResp BlockMaxGas block txs).get "gasUsed" = some (.uint64 block.GasUsed) ∧
    (blockToRpcResp BlockMaxGas block txs).get "gasLimit" = some (.uint64 BlockMaxGas) ∧
    (∀ (block2 : types.Block) (txs2 : List types.Transaction),
      (blockToRpcResp BlockMaxGas block2 txs2).get "gasLimit"
        = (blockToRpcResp BlockMaxGas block txs).get "gasLimit") := by
  have hg : ∀ (b : types.Block) (l : List types.Transaction),
      (blockToRpcResp BlockMaxGas b l).get "gasLimit" = some (.uint64 BlockMaxGas) := by
    intro b l
    rw [blockToRpcResp_get_of_ne _ _ _ _ (by decide)]
    rfl
  refine ⟨?_, toUint64_of_nonneg block.Number, ?_, block.Hash.2, ?_, hg block txs, ?_⟩
  · rw [blockToRpcResp_get_of_ne _ _ _ _ (by decide)]
    rfl
  · rw [blockToRpcResp_get_of_ne _ _ _ _ (by decide)]
    rfl
  · rw [blockToRpcResp_get_of_ne _ _ _ _ (by decide)]
    rfl
  · intro b2 l2
    rw [hg, hg]

/-- C6, at the block of the tests: height 123 and the gas limit 200000000. -/
theorem blockToRpcResp_header_witness :
    (0 : Int) ≤ sampleBlock.Number.1 ∧
    (blockToRpcResp 200000000 sampleBlock []).get "number" = some (.uint64 123) ∧
    (toUint64 sampleBlock.Number : Int) = sampleBlock.Number.1 ∧
    (blockToRpcResp 200000000 sampleBlock []).get "gasLimit" = some (.uint64 200000000) :=
  have h := blockToRpcResp_header 200000000 sampleBlock []
  ⟨by decide, h.1, h.2.1 (by decide), h.2.2.2.2.2.1⟩

/-- C7, as the code has it: when `txs` is empty, or lists the transactions of the block
(the hashes of `txs` are `block.Transactions`, in order), the `transactions` field has as
many entries as `block.Transactions` and its `i`-th entry stands for the `i`-th stored
hash; for every non-empty `txs`, the block's own list or not, the field has `len(txs)`
entries, the `i`-th being `txToRpcResp(txs[i])`. -/
theorem blockToRpcResp_transactions_length (BlockMaxGas : Nat) (block : types.Block)
    (txs : List types.Transaction) :
    ((txs = [] ∨ txs.map (fun t => t.Hash) = block.Transactions) →
      ∃ v, (blockToRpcResp BlockMaxGas block txs).get "transactions" = some v ∧
        v.len = block.Transactions.length ∧
        ∀ i, i < block.Transactions.length → v.hashAt i = block.Transactions[i]?) ∧
    (txs ≠ [] → ∃ v, (blockToRpcResp BlockMaxGas block txs).get "transactions" = some v ∧
      v.len = txs.length ∧ v = .txs (txs.map fun t => some (txToRpcResp t))) := by
  rw [blockToRpcResp_transactions]
  by_cases hnil : txs = []
  · simp [hnil, Value.len, Value.hashAt]
  · rw [if_neg hnil]
    refine ⟨fun h => ?_, fun _ => ⟨_, rfl, ?_, rfl⟩⟩
    · have hm : txs.map (fun t => t.Hash) = block.Transactions := h.resolve_left hnil
      refine ⟨_, rfl, ?_, fun i _ => ?_⟩
      · rw [← hm]
        simp [Value.len]
      · rw [← hm]
        simp only [Value.hashAt, List.getElem?_map]
        cases txs[i]? <;> simp [txToRpcResp]
    · simp [Value.len]

/-- C7, at the block of the tests: without transaction objects the field has the three
stored hashes; with the transaction `0x78` alone, which is not the block's list, it has
the one entry `txToRpcResp` of it; at a block that stores the hash `0x78` alone, that
entry stands for the stored hash. -/
theorem blockToRpcResp_transactions_length_witness :
    (∃ v, (blockToRpcResp 200000000 sampleBlock []).get "transactions" = some v ∧
      v.len = 3 ∧ v.hashAt 1 = some (hashOf 0x78)) ∧
    (∃ v, (blockToRpcResp 200000000 sampleBlock [sampleTx]).get "transactions" = some v ∧
      v.len = 1 ∧ v = .txs [some (txToRpcResp sampleTx)]) ∧
    (∃ v, (blockToRpcResp 200000000 sampleOwnBlock [sampleTx]).get "transactions" = some v ∧
      v.len = 1 ∧ v.hashAt 0 = some (hashOf 0x78)) := by
  obtain ⟨v, hv, hl, hi⟩ :=
    (blockToRpcResp_transactions_length 200000000 sampleBlock []).1 (Or.inl rfl)
  obtain ⟨w, hw, hwl, hwe⟩ :=
    (blockToRpcResp_transactions_length 200000000 sampleBlock [sampleTx]).2 (by decide)
  obtain ⟨u, hu, hul, hui⟩ :=
    (blockToRpcResp_transactions_length 200000000 sampleOwnBlock [sampleTx]).1 (Or.inr rfl)
  exact ⟨⟨v, hv, hl, hi 1 (by decide)⟩, ⟨w, hw, hwl, hwe⟩, ⟨u, hu, hul, hui 0 (by decide)⟩⟩

/-- C7 as stated fails when `txs` is not the block's own list: with the three stored
hashes of the test block and one transaction object, the field has one entry. -/
theorem blockToRpcResp_transactions_counterexample :
    sampleBlock.Transactions.length = 3 ∧
    ∃ v, (blockToRpcResp 200000000 sampleBlock [sampleTx]).get "transactions" = some v ∧
      v.len = 1 ∧ v.len ≠ sampleBlock.Transactions.length := by
  refine ⟨rfl, _, blockToRpcResp_transactions 200000000 sampleBlock [sampleTx], ?_, ?_⟩ <;>
    decide

/-! ## Properties of the receipt translator -/

/-- The loop of `isZeroAddress` returns true exactly on lists of zero bytes. -/
theorem isZeroAddress_loop_iff (l : List Byte) :
    isZeroAddress.loop l = true ↔ ∀ b ∈ l, b = 0 := by
  induction l with
  | nil => simp [isZeroAddress.loop]
  | cons b l ih =>
    by_cases hb : b = 0
    · simp [isZeroAddress.loop, hb, ih]
    · simp [isZeroAddress.loop, hb]

/-- The function `isZeroAddress` returns true exactly on the all-zero address. -/
theorem isZeroAddress_iff (a : ByteArray 20) : isZeroAddress a = true ↔ a.allZero :=
  isZeroAddress_loop_iff a.1

/-- Reading a key of a receipt response. -/
theorem txToReceiptRpcResp_get (tx : types.Transaction) (k : String) :
    (txToReceiptRpcResp tx).get k =
      if k = "outData" ∧ tx.Status = ReceiptStatusFailed then
        some (.string (hex.EncodeToString tx.OutData))
      else if k = "statusStr" ∧ tx.Status = ReceiptStatusFailed then
        some (.string tx.StatusStr)
      else if k = "contractAddress" ∧ isZeroAddress tx.ContractAddress = false then
        some (.address tx.ContractAddress)
      else (receiptBase tx).get k := by
  have hb : txToReceiptRpcResp tx =
      (let r1 := if !isZeroAddress tx.ContractAddress then
          (receiptBase tx).set "contractAddress" (.address tx.ContractAddress)
        else receiptBase tx
       if tx.Status == ReceiptStatusFailed then
         (r1.set "statusStr" (.string tx.StatusStr)).set "outData"
           (.string (hex.EncodeToString tx.OutData))
       else r1) := rfl
  rw [hb]
  generalize receiptBase tx = base
  by_cases hs : tx.Status = ReceiptStatusFailed <;>
    cases hz : isZeroAddress tx.ContractAddress <;>
    by_cases h1 : k = "outData" <;> by_cases h2 : k = "statusStr" <;>
    by_cases h3 : k = "contractAddress" <;>
    simp [hs, hz, h1, h2, h3, Map.get_set]

/-- An array is all zero exactly when it is the zero value of its type. -/
theorem ByteArray.allZero_iff {n : Nat} (a : ByteArray n) : a.allZero ↔ a = ByteArray.zero n := by
  constructor
  · intro h
    apply Subtype.ext
    exact List.eq_replicate_iff.mpr ⟨a.2, h⟩
  · intro h b hb
    rw [h] at hb
    exact (List.mem_replicate.mp hb).2

/-- C8: the `contractAddress` of a receipt response is null if and only if all 20 bytes
of `tx.ContractAddress` are zero, and is `tx.ContractAddress` otherwise; `isZeroAddress`
is true exactly on the all-zero address; the key is bound in both cases. -/
theorem txToReceiptRpcResp_contractAddress (tx : types.Transaction) :
    ((txToReceiptRpcResp tx).get "contractAddress" = some .null ↔
      tx.ContractAddress.allZero) ∧
    (¬ tx.ContractAddress.allZero →
      (txToReceiptRpcResp tx).get "contractAddress" = some (.address tx.ContractAddress)) ∧
    (∀ a : ByteArray 20, isZeroAddress a = true ↔ a = ByteArray.zero 20) ∧
    (txToReceiptRpcResp tx).get "contractAddress" ≠ none := by
  have hbase : (receiptBase tx).get "contractAddress" = some .null := rfl
  have hget : (txToReceiptRpcResp tx).get "contractAddress" =
      if isZeroAddress tx.ContractAddress = false then some (.address tx.ContractAddress)
      else some .null := by
    rw [txToReceiptRpcResp_get, if_neg (fun h => absurd h.1 (by decide)),
      if_neg (fun h => absurd h.1 (by decide)), hbase]
    simp
  have hz := isZeroAddress_iff tx.ContractAddress
  refine ⟨?_, ?_, fun a => (isZeroAddress_iff a).trans a.allZero_iff, ?_⟩
  · rw [hget, ← hz]
    cases isZeroAddress tx.ContractAddress <;> simp
  · intro h
    rw [← hz] at h
    rw [hget, if_pos (by simpa using h)]
  · rw [hget]
    split_ifs <;> simp

/-- C8, at a receipt whose contract address starts with the byte `0xA2`. -/
theorem txToReceiptRpcResp_contractAddress_witness :
    ¬ sampleFailedTx.ContractAddress.allZero ∧
    (txToReceiptRpcResp sampleFailedTx).get "contractAddress"
      = some (.address sampleAddress) ∧
    (txToReceiptRpcResp sampleTx).get "contractAddress" = some .null :=
  have hnz : ¬ sampleFailedTx.ContractAddress.allZero :=
    fun h => absurd (h 0xA2 (by decide)) (by decide)
  ⟨hnz, (txToReceiptRpcResp_contractAddress sampleFailedTx).2.1 hnz,
    (txToReceiptRpcResp_contractAddress sampleTx).1.mpr
      ((ByteArray.allZero_iff _).mpr rfl)⟩

/-- C9: the response of a failed receipt (status 0) binds `statusStr` to `tx.StatusStr`
and binds `outData`; the response of a successful receipt (status 1) binds neither. -/
theorem txToReceiptRpcResp_failure_keys (tx : types.Transaction) :
    (tx.Status = 0 →
      (txToReceiptRpcResp tx).get "statusStr" = some (.string tx.StatusStr) ∧
      (txToReceiptRpcResp tx).get "outData"
        = some (.string (hex.EncodeToString tx.OutData))) ∧
    (tx.Status = 1 →
      (txToReceiptRpcResp tx).get "statusStr" = none ∧
      (txToReceiptRpcResp tx).get "outData" = none) := by
  have hb1 : (receiptBase tx).get "statusStr" = none := rfl
  have hb2 : (receiptBase tx).get "outData" = none := rfl
  constructor
  · intro h
    have hf : tx.Status = ReceiptStatusFailed := h
    constructor
    · rw [txToReceiptRpcResp_get, if_neg (fun h => absurd h.1 (by decide)),
        if_pos ⟨rfl, hf⟩]
    · rw [txToReceiptRpcResp_get, if_pos ⟨rfl, hf⟩]
  · intro h
    have hf : ¬ tx.Status = ReceiptStatusFailed := by
      rw [h]
      decide
    constructor
    · rw [txToReceiptRpcResp_get, if_neg (fun h => hf h.2), if_neg (fun h => hf h.2),
        if_neg (fun h => absurd h.1 (by decide)), hb1]
    · rw [txToReceiptRpcResp_get, if_neg (fun h => hf h.2), if_neg (fun h => hf h.2),
        if_neg (fun h => absurd h.1 (by decide)), hb2]

/-- C9, at a failed receipt and at the successful receipt of the tests. -/
theorem txToReceiptRpcResp_failure_keys_witness :
    sampleFailedTx.Status = 0 ∧
    (txToReceiptRpcResp sampleFailedTx).get "statusStr" = some (.string "revert") ∧
    sampleTx.Status = 1 ∧
    (txToReceiptRpcResp sampleTx).get "statusStr" = none ∧
    (txToReceiptRpcResp sampleTx).get "outData" = none :=
  ⟨rfl, ((txToReceiptRpcResp_failure_keys sampleFailedTx).1 rfl).1, rfl,
    (txToReceiptRpcResp_failure_keys sampleTx).2 rfl⟩

/-! ## Properties of the error classifier -/

/-- C10: with `s = StatusToStr(code)`, `toCallErr` returns the revert error built from
the return data when `s` is "revert", the error with the message "invalid opcode" when
`s` is "invalid-instruction", and for every other `s`, the spelling "Revert" included, a
generic error whose message is `s`; the result is never the nil error. -/
theorem toCallErr_three_way {R : Type} (StatusToStr : Int → String)
    (newRevertError : Bytes → R) (defaultErrorCode : Int) (statusCode : Int)
    (retData : Bytes) :
    (StatusToStr statusCode = "revert" →
      toCallErr StatusToStr newRevertError defaultErrorCode statusCode retData
        = some (.revert (newRevertError retData))) ∧
    (StatusToStr statusCode = "invalid-instruction" →
      toCallErr StatusToStr newRevertError defaultErrorCode statusCode retData
        = some (.call { code := defaultErrorCode, msg := "invalid opcode" })) ∧
    (StatusToStr statusCode ≠ "revert" → StatusToStr statusCode ≠ "invalid-instruction" →
      toCallErr StatusToStr newRevertError defaultErrorCode statusCode retData
        = some (.call { code := defaultErrorCode, msg := StatusToStr statusCode })) ∧
    (StatusToStr statusCode = "Revert" →
      toCallErr StatusToStr newRevertError defaultErrorCode statusCode retData
        = some (.call { code := defaultErrorCode, msg := "Revert" })) ∧
    toCallErr StatusToStr newRevertError defaultErrorCode statusCode retData ≠ none := by
  refine ⟨?_, ?_, ?_, ?_, ?_⟩
  · intro h
    simp only [toCallErr, h, if_true]
  · intro h
    have h1 : ¬ ("invalid-instruction" = "revert") := by decide
    simp only [toCallErr, h, h1, if_true, if_false]
  · intro h1 h2
    simp only [toCallErr, h1, h2, if_false]
  · intro h
    have h1 : ¬ ("Revert" = "revert") := by decide
    have h2 : ¬ ("Revert" = "invalid-instruction") := by decide
    simp only [toCallErr, h, h1, h2, if_false]
  · simp only [toCallErr]
    split_ifs <;> simp

/-- C10, at a status table that answers "Revert" for the code 2. -/
theorem toCallErr_three_way_witness :
    sampleStatusToStr 2 = "Revert" ∧
    toCallErr sampleStatusToStr (fun b : Bytes => b) (-32000) 2 [0x01]
      = some (.call { code := -32000, msg := "Revert" }) :=
  ⟨rfl, (toCallErr_three_way sampleStatusToStr (fun b : Bytes => b) (-32000) 2 [0x01]).2.2.2.1
    rfl⟩

/-! ## The transactions of a block response, the placeholders, the plural translators -/

/-- The entries of an element-wise translation, by index. -/
theorem getElem?_map_some {α β : Type} (f : α → β) (xs : List α) (i : Nat)
    (h : i < xs.length) :
    (xs.map fun x => some (f x))[i]? = some (some (f xs[i])) := by
  rw [List.getElem?_map, List.getElem?_eq_getElem h]
  rfl

/-- C11: when `txs` is empty the `transactions` field is the hash sequence
`block.Transactions`, converted element by element in the same order; when `txs` is not
empty the field is the list of `txToRpcResp(txs[i])`, as long as `txs` and in its order;
no other field of the response depends on `txs`. -/
theorem blockToRpcResp_transactions_field (BlockMaxGas : Nat) (block : types.Block)
    (txs : List types.Transaction) :
    (txs.length = 0 →
      (blockToRpcResp BlockMaxGas block txs).get "transactions"
        = some (.hashes (ToGethHashes block.Transactions)) ∧
      (ToGethHashes block.Transactions).length = block.Transactions.length ∧
      ∀ i : Nat, (ToGethHashes block.Transactions)[i]? = block.Transactions[i]?) ∧
    (txs.length ≠ 0 →
      ∃ l, (blockToRpcResp BlockMaxGas block txs).get "transactions" = some (.txs l) ∧
        l.length = txs.length ∧
        ∀ i (h : i < txs.length), l[i]? = some (some (txToRpcResp txs[i]))) ∧
    (∀ k, k ≠ "transactions" → ∀ txs2 : List types.Transaction,
      (blockToRpcResp BlockMaxGas block txs).get k
        = (blockToRpcResp BlockMaxGas block txs2).get k) := by
  refine ⟨fun h0 => ?_, fun hne => ?_, fun k hk txs2 => ?_⟩
  · have hnil : txs = [] := List.length_eq_zero.mp h0
    rw [blockToRpcResp_transactions, if_pos hnil]
    simp [ToGethHashes]
  · have hnil : txs ≠ [] := fun h => hne (by rw [h]; rfl)
    rw [blockToRpcResp_transactions, if_neg hnil]
    exact ⟨_, rfl, List.length_map _ _, fun i h => getElem?_map_some txToRpcResp txs i h⟩
  · rw [blockToRpcResp_get_of_ne _ _ txs k hk, blockToRpcResp_get_of_ne _ _ txs2 k hk]

/-- C11, at the block of the tests: the three hashes without `txs`, one transaction object
with `txs = [tx]`. -/
theorem blockToRpcResp_transactions_field_witness :
    (blockToRpcResp 200000000 sampleBlock []).get "transactions"
      = some (.hashes [hashOf 0x56, hashOf 0x78, hashOf 0x90]) ∧
    ∃ l, (blockToRpcResp 200000000 sampleBlock [sampleTx]).get "transactions"
        = some (.txs l) ∧ l.length = 1 :=
  have h := blockToRpcResp_transactions_field 200000000 sampleBlock []
  have h2 := blockToRpcResp_transactions_field 200000000 sampleBlock [sampleTx]
  ⟨(h.1 rfl).1, (h2.2.1 (by decide)).imp fun _ hl => ⟨hl.1, hl.2.1⟩⟩

/-- The fields of a block response that do not mention the block. -/
theorem blockToRpcResp_placeholder_get (G : Nat) (block : types.Block)
    (txs : List types.Transaction) :
    (blockToRpcResp G block txs).get "nonce" = some (.bytes [0, 0, 0, 0, 0, 0, 0, 0]) ∧
    (blockToRpcResp G block txs).get "sha3Uncles" = some (.hash (ByteArray.zero 32)) ∧
    (blockToRpcResp G block txs).get "mixHash" = some (.hash (ByteArray.zero 32)) ∧
    (blockToRpcResp G block txs).get "receiptsRoot" = some (.hash (ByteArray.zero 32)) ∧
    (blockToRpcResp G block txs).get "difficulty" = some (.uint64 0) ∧
    (blockToRpcResp G block txs).get "totalDifficulty" = some (.uint64 0) ∧
    (blockToRpcResp G block txs).get "uncles" = some (.strings []) ∧
    (blockToRpcResp G block txs).get "logsBloom" = some (.bloom (ByteArray.zero 256)) := by
  refine ⟨?_, ?_, ?_, ?_, ?_, ?_, ?_, ?_⟩ <;>
    (rw [blockToRpcResp_get_of_ne _ _ _ _ (by decide)]; rfl)

/-- C12: every block response has `nonce` = 8 zero bytes, `sha3Uncles` = `mixHash` =
`receiptsRoot` = the zero hash, `difficulty` = `totalDifficulty` = 0, `uncles` = the
empty list and `logsBloom` = the zero bloom, and these eight values are the same for any
two blocks and any two `txs`. -/
theorem blockToRpcResp_placeholders (BlockMaxGas : Nat) (block : types.Block)
    (txs : List types.Transaction) :
    ((blockToRpcResp BlockMaxGas block txs).get "nonce"
        = some (.bytes [0, 0, 0, 0, 0, 0, 0, 0]) ∧
      (blockToRpcResp BlockMaxGas block txs).get "sha3Uncles"
        = some (.hash (ByteArray.zero 32)) ∧
      (blockToRpcResp BlockMaxGas block txs).get "mixHash"
        = some (.hash (ByteArray.zero 32)) ∧
      (blockToRpcResp BlockMaxGas block txs).get "receiptsRoot"
        = some (.hash (ByteArray.zero 32)) ∧
      (blockToRpcResp BlockMaxGas block txs).get "difficulty" = some (.uint64 0) ∧
      (blockToRpcResp BlockMaxGas block txs).get "totalDifficulty" = some (.uint64 0) ∧
      (blockToRpcResp BlockMaxGas block txs).get "uncles" = some (.strings []) ∧
      (blockToRpcResp BlockMaxGas block txs).get "logsBloom"
        = some (.bloom (ByteArray.zero 256))) ∧
    (ByteArray.zero 32).allZero ∧ (ByteArray.zero 256).allZero ∧
    ∀ k ∈ ["nonce", "sha3Uncles", "mixHash", "receiptsRoot", "difficulty",
        "totalDifficulty", "uncles", "logsBloom"],
      ∀ (BlockMaxGas2 : Nat) (block2 : types.Block) (txs2 : List types.Transaction),
        (blockToRpcResp BlockMaxGas block txs).get k
          = (blockToRpcResp BlockMaxGas2 block2 txs2).get k := by
  refine ⟨blockToRpcResp_placeholder_get _ _ _, (ByteArray.allZero_iff _).mpr rfl,
    (ByteArray.allZero_iff _).mpr rfl, ?_⟩
  intro k hk G2 block2 txs2
  obtain ⟨h1, h2, h3, h4, h5, h6, h7, h8⟩ := blockToRpcResp_placeholder_get BlockMaxGas block txs
  obtain ⟨g1, g2, g3, g4, g5, g6, g7, g8⟩ := blockToRpcResp_placeholder_get G2 block2 txs2
  simp only [List.mem_cons, List.mem_singleton, List.not_mem_nil, or_false] at hk
  rcases hk with rfl | rfl | rfl | rfl | rfl | rfl | rfl | rfl
  · rw [h1, g1]
  · rw [h2, g2]
  · rw [h3, g3]
  · rw [h4, g4]
  · rw [h5, g5]
  · rw [h6, g6]
  · rw [h7, g7]
  · rw [h8, g8]

/-- C12, at the block of the tests and at the block of height `-1` with a transaction. -/
theorem blockToRpcResp_placeholders_witness :
    (blockToRpcResp 200000000 sampleBlock []).get "uncles"
      = (blockToRpcResp 1 sampleNegBlock [sampleTx]).get "uncles" :=
  (blockToRpcResp_placeholders 200000000 sampleBlock []).2.2.2 "uncles" (by decide) 1
    sampleNegBlock [sampleTx]

/-- C13: `txsToRpcResp(txs)` is as long as `txs` and its `i`-th element is
`txToRpcResp(txs[i])`; `txsToReceiptRpcResp(txs)` is as long as `txs` and its `i`-th
element is `txToReceiptRpcResp(txs[i])`; both are the element-wise map of the singular
translator and send the empty list to the empty list. -/
theorem txsToRpcResp_elementwise (txs : List types.Transaction) :
    ((txsToRpcResp txs).length = txs.length ∧
      (∀ i (h : i < txs.length), (txsToRpcResp txs)[i]? = some (some (txToRpcResp txs[i]))) ∧
      txsToRpcResp txs = txs.map (fun t => some (txToRpcResp t)) ∧
      txsToRpcResp [] = []) ∧
    ((txsToReceiptRpcResp txs).length = txs.length ∧
      (∀ i (h : i < txs.length),
        (txsToReceiptRpcResp txs)[i]? = some (some (txToReceiptRpcResp txs[i]))) ∧
      txsToReceiptRpcResp txs = txs.map (fun t => some (txToReceiptRpcResp t)) ∧
      txsToReceiptRpcResp [] = []) := by
  have h1 : txsToRpcResp txs = txs.map (fun t => some (txToRpcResp t)) :=
    fillLoop_eq_map txToRpcResp txs
  have h2 : txsToReceiptRpcResp txs = txs.map (fun t => some (txToReceiptRpcResp t)) :=
    fillLoop_eq_map txToReceiptRpcResp txs
  refine ⟨⟨?_, ?_, h1, rfl⟩, ⟨?_, ?_, h2, rfl⟩⟩
  · rw [h1, List.length_map]
  · intro i h
    rw [h1]
    exact getElem?_map_some txToRpcResp txs i h
  · rw [h2, List.length_map]
  · intro i h
    rw [h2]
    exact getElem?_map_some txToReceiptRpcResp txs i h

/-- C13, at a list of two transactions: the second element of each translation. -/
theorem txsToRpcResp_elementwise_witness :
    (txsToRpcResp [sampleTx, sampleFailedTx])[1]? = some (some (txToRpcResp sampleFailedTx)) ∧
    (txsToReceiptRpcResp [sampleTx, sampleFailedTx])[1]?
      = some (some (txToReceiptRpcResp sampleFailedTx)) :=
  have h := txsToRpcResp_elementwise [sampleTx, sampleFailedTx]
  ⟨h.1.2.1 1 (by decide), h.2.2.1 1 (by decide)⟩

/-! ## The fields of the transaction and receipt responses -/

/-- Copying an array over an array of the same size gives the source. -/
theorem ByteArray.copy_eq {n : Nat} (dst src : ByteArray n) : dst.copy src.1 = src := by
  apply Subtype.ext
  show SmartBCH.copy dst.1 src.1 = src.1
  unfold SmartBCH.copy
  rw [List.take_of_length_le (by rw [dst.2, src.2]),
    List.drop_of_length_le (by rw [dst.2, src.2]), List.append_nil]

/-- The function `txToRpcResp`, field by field. -/
theorem txToRpcResp_eq (tx : types.Transaction) :
    txToRpcResp tx =
      { BlockHash := some tx.BlockHash
        BlockNumber := some tx.BlockNumber.1
        From := tx.From
        Gas := tx.Gas
        GasPrice := some (U256FromSlice32 tx.GasPrice.1)
        Hash := tx.Hash
        Input := tx.Input
        Nonce := tx.Nonce
        To := some tx.To
        TransactionIndex := some (toUint64 tx.TransactionIndex)
        Value := some (U256FromSlice32 tx.Value.1)
        V := none
        R := none
        S := none } := by
  simp only [txToRpcResp, ByteArray.copy_eq]

/-- C14: `txToRpcResp(tx)` has a present `To` equal to the 20 bytes of `tx.To` (the zero
address when `tx.To` is zero), a present `BlockHash` equal to `tx.BlockHash`, a present
`TransactionIndex` equal to `tx.TransactionIndex` (the field holds the index converted to
`uint64`, which is the index itself for every index that is not negative, as a 0-based
position is), and `Hash`, `From`, `Nonce`, `Gas` and `Input` equal to those of `tx`. -/
theorem txToRpcResp_fields (tx : types.Transaction) :
    (txToRpcResp tx).To = some tx.To ∧
    (tx.To = ByteArray.zero 20 → (txToRpcResp tx).To = some (ByteArray.zero 20)) ∧
    (txToRpcResp tx).BlockHash = some tx.BlockHash ∧
    (txToRpcResp tx).TransactionIndex = some (toUint64 tx.TransactionIndex) ∧
    (0 ≤ tx.TransactionIndex.1 →
      ((toUint64 tx.TransactionIndex : Nat) : Int) = tx.TransactionIndex.1) ∧
    (txToRpcResp tx).Hash = tx.Hash ∧
    (txToRpcResp tx).From = tx.From ∧
    (txToRpcResp tx).Nonce = tx.Nonce ∧
    (txToRpcResp tx).Gas = tx.Gas ∧
    (txToRpcResp tx).Input = tx.Input := by
  rw [txToRpcResp_eq]
  exact ⟨rfl, fun h => by rw [h], rfl, rfl, toUint64_of_nonneg _, rfl, rfl, rfl, rfl, rfl⟩

/-- C14, at the transaction `0x78` of the tests: index 1 and the zero address as `To`. -/
theorem txToRpcResp_fields_witness :
    (0 : Int) ≤ sampleTx.TransactionIndex.1 ∧
    (txToRpcResp sampleTx).TransactionIndex = some 1 ∧
    ((toUint64 sampleTx.TransactionIndex : Nat) : Int) = sampleTx.TransactionIndex.1 ∧
    (txToRpcResp sampleTx).To = some (ByteArray.zero 20) ∧
    (txToRpcResp sampleTx).Hash = hashOf 0x78 :=
  have h := txToRpcResp_fields sampleTx
  ⟨by decide, h.2.2.2.1, h.2.2.2.2.1 (by decide), h.2.1 rfl, h.2.2.2.2.2.1⟩

/-- Outside the three conditional keys a receipt response is its map literal. -/
theorem txToReceiptRpcResp_get_base (tx : types.Transaction) (k : String)
    (h1 : k ≠ "outData") (h2 : k ≠ "statusStr") (h3 : k ≠ "contractAddress") :
    (txToReceiptRpcResp tx).get k = (receiptBase tx).get k := by
  rw [txToReceiptRpcResp_get, if_neg (fun h => h1 h.1), if_neg (fun h => h2 h.1),
    if_neg (fun h => h3 h.1)]

/-- The eight plain fields of a receipt response. -/
theorem txToReceiptRpcResp_plain (tx : types.Transaction) :
    (txToReceiptRpcResp tx).get "transactionHash" = some (.hash tx.Hash) ∧
    (txToReceiptRpcResp tx).get "transactionIndex"
      = some (.uint64 (toUint64 tx.TransactionIndex)) ∧
    (txToReceiptRpcResp tx).get "blockHash" = some (.hash tx.BlockHash) ∧
    (txToReceiptRpcResp tx).get "from" = some (.address tx.From) ∧
    (txToReceiptRpcResp tx).get "to" = some (.address tx.To) ∧
    (txToReceiptRpcResp tx).get "cumulativeGasUsed" = some (.uint64 tx.CumulativeGasUsed) ∧
    (txToReceiptRpcResp tx).get "gasUsed" = some (.uint64 tx.GasUsed) ∧
    (txToReceiptRpcResp tx).get "status" = some (.uint tx.Status) := by
  refine ⟨?_, ?_, ?_, ?_, ?_, ?_, ?_, ?_⟩ <;>
    (rw [txToReceiptRpcResp_get_base _ _ (by decide) (by decide) (by decide)]; rfl)

/-- C18: a receipt response reports `transactionHash = tx.Hash`,
`transactionIndex = tx.TransactionIndex` (the field holds the index converted to
`uint64`, which is the index itself for every index that is not negative, as a 0-based
position is), `blockHash = tx.BlockHash`, `from = tx.From`, `to = tx.To`,
`cumulativeGasUsed = tx.CumulativeGasUsed`, `gasUsed = tx.GasUsed` and
`status = tx.Status`, and none of these eight fields depends on `tx.ContractAddress`,
`tx.StatusStr` or `tx.OutData`. -/
theorem txToReceiptRpcResp_eight_fields (tx : types.Transaction) :
    ((txToReceiptRpcResp tx).get "transactionHash" = some (.hash tx.Hash) ∧
      (txToReceiptRpcResp tx).get "transactionIndex"
        = some (.uint64 (toUint64 tx.TransactionIndex)) ∧
      (txToReceiptRpcResp tx).get "blockHash" = some (.hash tx.BlockHash) ∧
      (txToReceiptRpcResp tx).get "from" = some (.address tx.From) ∧
      (txToReceiptRpcResp tx).get "to" = some (.address tx.To) ∧
      (txToReceiptRpcResp tx).get "cumulativeGasUsed"
        = some (.uint64 tx.CumulativeGasUsed) ∧
      (txToReceiptRpcResp tx).get "gasUsed" = some (.uint64 tx.GasUsed) ∧
      (txToReceiptRpcResp tx).get "status" = some (.uint tx.Status)) ∧
    (0 ≤ tx.TransactionIndex.1 →
      ((toUint64 tx.TransactionIndex : Nat) : Int) = tx.TransactionIndex.1) ∧
    ∀ (contractAddress : ByteArray 20) (statusStr : String) (outData : Bytes),
      ∀ k ∈ ["transactionHash", "transactionIndex", "blockHash", "from", "to",
          "cumulativeGasUsed", "gasUsed", "status"],
        (txToReceiptRpcResp { tx with
            ContractAddress := contractAddress, StatusStr := statusStr,
            OutData := outData }).get k
          = (txToReceiptRpcResp tx).get k := by
  refine ⟨txToReceiptRpcResp_plain tx, toUint64_of_nonneg _, ?_⟩
  intro ca ss od k hk
  obtain ⟨h1, h2, h3, h4, h5, h6, h7, h8⟩ := txToReceiptRpcResp_plain tx
  obtain ⟨g1, g2, g3, g4, g5, g6, g7, g8⟩ := txToReceiptRpcResp_plain
    { tx with ContractAddress := ca, StatusStr := ss, OutData := od }
  simp only [List.mem_cons, List.mem_singleton, List.not_mem_nil, or_false] at hk
  rcases hk with rfl | rfl | rfl | rfl | rfl | rfl | rfl | rfl
  · rw [h1, g1]
  · rw [h2, g2]
  · rw [h3, g3]
  · rw [h4, g4]
  · rw [h5, g5]
  · rw [h6, g6]
  · rw [h7, g7]
  · rw [h8, g8]

/-- C18, at the receipt of the tests: hash `0x78`, index 1, status 1, and the same
`status` after the contract address, the status string and the output data change. -/
theorem txToReceiptRpcResp_eight_fields_witness :
    (txToReceiptRpcResp sampleTx).get "transactionHash" = some (.hash (hashOf 0x78)) ∧
    (txToReceiptRpcResp sampleTx).get "transactionIndex" = some (.uint64 1) ∧
    (txToReceiptRpcResp sampleTx).get "status" = some (.uint 1) ∧
    (txToReceiptRpcResp { sampleTx with
        ContractAddress := sampleAddress, StatusStr := "revert",
        OutData := [0x08] }).get "status"
      = (txToReceiptRpcResp sampleTx).get "status" :=
  have h := txToReceiptRpcResp_eight_fields sampleTx
  ⟨h.1.1, h.1.2.1, h.1.2.2.2.2.2.2.2,
    h.2.2 sampleAddress "revert" [0x08] "status" (by decide)⟩

/-- C17: the `logs` field of a receipt response has as many entries as `tx.Logs`, in
the same order, and its `i`-th entry carries the address, the topics and the data of
`tx.Logs[i]`. -/
theorem txToReceiptRpcResp_logs (tx : types.Transaction) :
    ∃ l, (txToReceiptRpcResp tx).get "logs" = some (.logs l) ∧
      l.length = tx.Logs.length ∧
      ∀ i (h : i < tx.Logs.length), ∃ g, l[i]? = some (some g) ∧
        g.Address = tx.Logs[i].Address ∧ g.Topics = tx.Logs[i].Topics ∧
        g.Data = tx.Logs[i].Data := by
  refine ⟨ToGethLogs tx.Logs, ?_, List.length_map _ _, fun i h => ?_⟩
  · rw [txToReceiptRpcResp_get_base _ _ (by decide) (by decide) (by decide)]
    rfl
  · exact ⟨ToGethLog tx.Logs[i], getElem?_map_some ToGethLog tx.Logs i h, rfl, rfl, rfl⟩

/-- C17, at the receipt of the tests: two logs, the second with the address `0xA2..` and
the data `[0xD1]`. -/
theorem txToReceiptRpcResp_logs_witness :
    ∃ l, (txToReceiptRpcResp sampleTx).get "logs" = some (.logs l) ∧ l.length = 2 ∧
      ∃ g, l[1]? = some (some g) ∧ g.Address = sampleAddress ∧ g.Data = [0xD1] := by
  obtain ⟨l, hl, hlen, hi⟩ := txToReceiptRpcResp_logs sampleTx
  obtain ⟨g, hg, ha, -, hd⟩ := hi 1 (by decide)
  exact ⟨l, hl, hlen, g, hg, ha, hd⟩

/-- C20: the `blockNumber` of a receipt response is `tx.BlockNumber` reduced modulo
`2^64`, the `BlockNumber` of a transaction response is the signed `tx.BlockNumber`
itself, and the two are the same number exactly when `tx.BlockNumber` is not negative. -/
theorem blockNumber_receipt_vs_transaction (tx : types.Transaction) :
    (txToReceiptRpcResp tx).get "blockNumber" = some (.uint64 (toUint64 tx.BlockNumber)) ∧
    ((toUint64 tx.BlockNumber : Nat) : Int) = tx.BlockNumber.1 % (2 : Int) ^ 64 ∧
    (txToRpcResp tx).BlockNumber = some tx.BlockNumber.1 ∧
    (((toUint64 tx.BlockNumber : Nat) : Int) = tx.BlockNumber.1 ↔ 0 ≤ tx.BlockNumber.1) := by
  refine ⟨?_, ?_, ?_, ?_⟩
  · rw [txToReceiptRpcResp_get_base _ _ (by decide) (by decide) (by decide)]
    rfl
  · unfold toUint64
    exact Int.toNat_of_nonneg (Int.emod_nonneg _ (by norm_num))
  · rw [txToRpcResp_eq]
  · constructor
    · intro h
      rw [← h]
      exact Int.ofNat_nonneg _
    · exact toUint64_of_nonneg _

/-- C20, at the heights 123 and `-1`. -/
theorem blockNumber_receipt_vs_transaction_witness :
    (txToReceiptRpcResp sampleTx).get "blockNumber" = some (.uint64 123) ∧
    (txToRpcResp sampleTx).BlockNumber = some 123 ∧
    (txToReceiptRpcResp sampleNegHeightTx).get "blockNumber"
      = some (.uint64 18446744073709551615) ∧
    (txToRpcResp sampleNegHeightTx).BlockNumber = some (-1) ∧
    ¬ ((toUint64 sampleNegHeightTx.BlockNumber : Nat) : Int)
        = sampleNegHeightTx.BlockNumber.1 :=
  have h := blockNumber_receipt_vs_transaction sampleTx
  have h2 := blockNumber_receipt_vs_transaction sampleNegHeightTx
  ⟨h.1, h.2.2.1, h2.1, h2.2.2.1, fun e => absurd (h2.2.2.2.mp e) (by decide)⟩

/-! ## Error code and error precedence -/

/-- C15: when the status string is not "revert", the error of `toCallErr` is a
`callError` with the code `defaultErrorCode`, the "invalid opcode" error and the generic
errors alike. -/
theorem toCallErr_default_code {R : Type} (StatusToStr : Int → String)
    (newRevertError : Bytes → R) (defaultErrorCode : Int) (statusCode : Int)
    (retData : Bytes) (h : StatusToStr statusCode ≠ "revert") :
    ∃ msg, toCallErr StatusToStr newRevertError defaultErrorCode statusCode retData
      = some (.call { code := defaultErrorCode, msg := msg }) := by
  simp only [toCallErr, if_neg h]
  split_ifs
  · exact ⟨_, rfl⟩
  · exact ⟨_, rfl⟩

/-- C15, at a status table with the strings "Revert" and "success". -/
theorem toCallErr_default_code_witness :
    sampleStatusToStr 0 ≠ "revert" ∧
    ∃ msg, toCallErr sampleStatusToStr (fun b : Bytes => b) (-32000) 0 []
      = some (.call { code := -32000, msg := msg }) :=
  ⟨by decide,
    toCallErr_default_code sampleStatusToStr (fun b : Bytes => b) (-32000) 0 [] (by decide)⟩

/-- C19: a nil nonce gives "no nonce" whatever the other fields are; with a nonce,
`data` and `input` that differ give the data/input error whether or not `to` is set; the
"contract creation without any data provided" error comes only with a nonce and without
a data/input conflict. -/
theorem createGethTx_error_precedence (gp : Int) (gl : Nat) (args : SendTxArgs) :
    (args.Nonce = none → createGethTxFromSendTxArgs gp gl args = .error "no nonce") ∧
    (args.Nonce ≠ none → args.ambiguous →
      createGethTxFromSendTxArgs gp gl args = .error errDataInput) ∧
    (createGethTxFromSendTxArgs gp gl args
        = .error "contract creation without any data provided" →
      args.Nonce ≠ none ∧ ¬ args.ambiguous) := by
  refine ⟨createGethTx_nil_nonce gp gl args, ?_, ?_⟩
  · intro hn ha
    obtain ⟨n, hn2⟩ := Option.ne_none_iff_exists'.mp hn
    exact (createGethTx_of_nonce gp gl args n hn2).1 ha
  · intro h
    cases hn : args.Nonce with
    | none =>
      rw [createGethTx_nil_nonce gp gl args hn] at h
      exact absurd (Except.error.inj h) (by decide)
    | some n =>
      refine ⟨by simp, fun ha => ?_⟩
      rw [(createGethTx_of_nonce gp gl args n hn).1 ha] at h
      exact absurd (Except.error.inj h) (by decide)

/-- C19, at a creation request without nonce, without `to` and with `data` and `input`
that differ. -/
theorem createGethTx_error_precedence_witness :
    sampleConflictArgs.Nonce = none ∧ sampleConflictArgs.To = none ∧
    sampleConflictArgs.ambiguous ∧
    createGethTxFromSendTxArgs 1 21000 sampleConflictArgs = .error "no nonce" ∧
    createGethTxFromSendTxArgs 1 21000 { sampleConflictArgs with Nonce := some 0 }
      = .error errDataInput :=
  have ha : sampleConflictArgs.ambiguous := ⟨[0x01], [0x02], rfl, rfl, by decide⟩
  ⟨rfl, rfl, ha, (createGethTx_error_precedence 1 21000 sampleConflictArgs).1 rfl,
    (createGethTx_error_precedence 1 21000 { sampleConflictArgs with Nonce := some 0 }).2.1
      (by decide) ⟨[0x01], [0x02], rfl, rfl, by decide⟩⟩

/-! ## The encoding of `outData` -/

/-- The value of a digit of `hextable` is its position. -/
theorem fromHexChar_hextable (n : Nat) (h : n < 16) :
    fromHexChar (hextable.getD n '0') = some n :=
  (by decide : ∀ m : Fin 16, fromHexChar (hextable.getD m.val '0') = some m.val) ⟨n, h⟩

/-- The digits of `hextable` are lowercase hexadecimal digits. -/
theorem isLowerHexDigit_hextable (n : Nat) (h : n < 16) :
    isLowerHexDigit (hextable.getD n '0') = true :=
  (by decide : ∀ m : Fin 16, isLowerHexDigit (hextable.getD m.val '0') = true) ⟨n, h⟩

/-- Decoding the digits of `hex.EncodeToString` gives the bytes back. -/
theorem hex_decodeChars_encode (src : Bytes) :
    hex.decodeChars (src.flatMap fun v =>
      [hextable.getD (v.val / 16) '0', hextable.getD (v.val % 16) '0']) = some src := by
  induction src with
  | nil => rfl
  | cons v rest ih =>
    have h1 := fromHexChar_hextable (v.val / 16) (by omega)
    have h2 := fromHexChar_hextable (v.val % 16) (Nat.mod_lt _ (by decide))
    have hv : (⟨(v.val / 16 * 16 + v.val % 16) % 256, Nat.mod_lt _ (by decide)⟩ : Byte) = v := by
      apply Fin.ext
      show (v.val / 16 * 16 + v.val % 16) % 256 = v.val
      omega
    have hstep : ((v :: rest).flatMap fun v =>
        [hextable.getD (v.val / 16) '0', hextable.getD (v.val % 16) '0'])
        = hextable.getD (v.val / 16) '0' :: hextable.getD (v.val % 16) '0' ::
          rest.flatMap fun v =>
            [hextable.getD (v.val / 16) '0', hextable.getD (v.val % 16) '0'] := rfl
    rw [hstep]
    simp only [hex.decodeChars, h1, h2, ih, hv]

/-- The function `hex.DecodeString` inverts `hex.EncodeToString`. -/
theorem hex_DecodeString_EncodeToString (src : Bytes) :
    hex.DecodeString (hex.EncodeToString src) = some src :=
  hex_decodeChars_encode src

/-- The encoding has two characters for each byte. -/
theorem hex_EncodeToString_length (src : Bytes) :
    (hex.EncodeToString src).length = 2 * src.length := by
  show (src.flatMap fun v =>
      [hextable.getD (v.val / 16) '0', hextable.getD (v.val % 16) '0']).length = _
  induction src with
  | nil => rfl
  | cons v rest ih =>
    simp only [List.flatMap_cons, List.length_append, List.length_cons, List.length_nil, ih]
    omega

/-- The characters of the encoding are lowercase hexadecimal digits. -/
theorem hex_EncodeToString_digits (src : Bytes) :
    ∀ c ∈ (hex.EncodeToString src).data, isLowerHexDigit c = true := by
  intro c hc
  have hc2 : c ∈ src.flatMap fun v =>
      [hextable.getD (v.val / 16) '0', hextable.getD (v.val % 16) '0'] := hc
  obtain ⟨v, -, hv⟩ := List.mem_flatMap.mp hc2
  simp only [List.mem_cons, List.mem_singleton, List.not_mem_nil, or_false] at hv
  rcases hv with rfl | rfl
  · exact isLowerHexDigit_hextable _ (by omega)
  · exact isLowerHexDigit_hextable _ (Nat.mod_lt _ (by decide))

/-- C16, as the code has it: the `outData` of a failed receipt is the encoding
`hex.EncodeToString(tx.OutData)`, two lowercase hexadecimal digits for each byte and no
prefix, and `hex.DecodeString` of it gives `tx.OutData` back; the codec's encoding is
this string behind the prefix "0x". -/
theorem txToReceiptRpcResp_outData (tx : types.Transaction)
    (h : tx.Status = ReceiptStatusFailed) :
    (txToReceiptRpcResp tx).get "outData" = some (.string (hex.EncodeToString tx.OutData)) ∧
    (hex.EncodeToString tx.OutData).length = 2 * tx.OutData.length ∧
    (∀ c ∈ (hex.EncodeToString tx.OutData).data, isLowerHexDigit c = true) ∧
    hex.DecodeString (hex.EncodeToString tx.OutData) = some tx.OutData ∧
    codecHexEncode tx.OutData = "0x" ++ hex.EncodeToString tx.OutData := by
  refine ⟨?_, hex_EncodeToString_length _, hex_EncodeToString_digits _,
    hex_DecodeString_EncodeToString _, rfl⟩
  rw [txToReceiptRpcResp_get, if_pos ⟨rfl, h⟩]

/-- C16, at a failed receipt with the output data `08 c3 79 a0`. -/
theorem txToReceiptRpcResp_outData_witness :
    sampleFailedTx.Status = ReceiptStatusFailed ∧
    (txToReceiptRpcResp sampleFailedTx).get "outData" = some (.string "08c379a0") ∧
    hex.DecodeString "08c379a0" = some [0x08, 0xc3, 0x79, 0xa0] :=
  have h := txToReceiptRpcResp_outData sampleFailedTx rfl
  ⟨rfl, h.1, h.2.2.2.1⟩

/-- C16 as stated fails at that receipt: `outData` is "08c379a0", the codec's encoding
of the output data is "0x08c379a0". -/
theorem txToReceiptRpcResp_outData_counterexample :
    sampleFailedTx.Status = ReceiptStatusFailed ∧
    (txToReceiptRpcResp sampleFailedTx).get "outData" = some (.string "08c379a0") ∧
    codecHexEncode sampleFailedTx.OutData = "0x08c379a0" ∧
    (txToReceiptRpcResp sampleFailedTx).get "outData"
      ≠ some (.string (codecHexEncode sampleFailedTx.OutData)) := by
  refine ⟨rfl, by decide, by decide, by decide⟩

/-! ## The return data and the classifier -/

/-- C21: when the status string is not "revert", `toCallErr` returns the same error for
any two return data; in the revert branch the error is `newRevertError` of the return
data, the only place where the data is read. -/
theorem toCallErr_retData_irrelevant {R : Type} (StatusToStr : Int → String)
    (newRevertError : Bytes → R) (defaultErrorCode : Int) (statusCode : Int) :
    (StatusToStr statusCode ≠ "revert" → ∀ d1 d2 : Bytes,
      toCallErr StatusToStr newRevertError defaultErrorCode statusCode d1
        = toCallErr StatusToStr newRevertError defaultErrorCode statusCode d2) ∧
    (StatusToStr statusCode = "revert" → ∀ d : Bytes,
      toCallErr StatusToStr newRevertError defaultErrorCode statusCode d
        = some (.revert (newRevertError d))) := by
  constructor
  · intro h d1 d2
    simp only [toCallErr, if_neg h]
  · intro h d
    simp only [toCallErr, h, if_true]

/-- C21, at a status table that answers "success" for the code 0, with two different
return data. -/
theorem toCallErr_retData_irrelevant_witness :
    sampleStatusToStr 0 ≠ "revert" ∧
    toCallErr sampleStatusToStr (fun b : Bytes => b) (-32000) 0 [0x01]
      = toCallErr sampleStatusToStr (fun b : Bytes => b) (-32000) 0 [0x02, 0x03] :=
  ⟨by decide,
    (toCallErr_retData_irrelevant sampleStatusToStr (fun b : Bytes => b) (-32000) 0).1
      (by decide) [0x01] [0x02, 0x03]⟩

end SmartBCH
